import Mathlib

/-!
Verification of the swagger model builder (`swagger/model_builder.go`).

The Go builder walks a (possibly cyclic) graph of reflected types and
synthesizes a registry of schema Models.  We embed the reflected type
graph shallowly: a `GoType` mirrors a `reflect.Type` (kind, name, string
representation), cyclic references go through an environment of named
struct definitions, and the recursive builder is given explicit fuel
(`none` = fuel exhausted, so termination claims become claims that some
finite fuel returns `some`).
-/

namespace Swagger

/-- Item mirrors the swagger Item struct as used by the builder:
a Type or a Ref for array elements (Go pointers become Option). -/
structure Item where
  type : Option String := none
  ref : Option String := none
deriving DecidableEq

/-- ModelProperty mirrors the swagger ModelProperty struct as used by the
builder: optional Type and Ref (Go string pointers), Format and
Description strings (Go zero value is the empty string), optional Items. -/
structure ModelProperty where
  type : Option String := none
  format : String := ""
  ref : Option String := none
  items : Option Item := none
  description : String := ""
deriving DecidableEq

/-- Model mirrors the swagger Model struct: Id, Required list and the
Properties map (embedded as an association list with set-once keys). -/
structure Model where
  id : String := ""
  required : List String := []
  properties : List (String × ModelProperty) := []
deriving DecidableEq

mutual
/-- GoType mirrors reflect.Type restricted to the kinds the builder
dispatches on: primitive scalars, string, named and anonymous structs,
slices, arrays, pointers, maps, and a catch-all for the remaining kinds
(named non-struct types, chan, func, interface). Named structs carry
their short Name and qualified String form; their fields live in the
environment, which is what lets the type graph be cyclic. -/
inductive GoType where
  | prim (name : String)
  | str
  | namedStruct (name strRep : String)
  | anonStruct (strRep : String) (fields : List GoField)
  | slice (elem : GoType)
  | array (size : Nat) (elem : GoType)
  | ptr (elem : GoType)
  | mapT (key value : GoType)
  | other (name strRep : String)

/-- GoField mirrors reflect.StructField as the builder reads it: the Go
field name, its type, the Anonymous flag, and the json and description
struct tags (the empty string is Go's Tag.Get result for a missing tag). -/
inductive GoField where
  | mk (name : String) (typ : GoType) (anonymous : Bool)
      (jsonTag : String) (descTag : String)
end

/-- name of a GoField. -/
def GoField.name : GoField → String
  | .mk n _ _ _ _ => n

/-- typ of a GoField. -/
def GoField.typ : GoField → GoType
  | .mk _ t _ _ _ => t

/-- anonymous flag of a GoField. -/
def GoField.anonymous : GoField → Bool
  | .mk _ _ a _ _ => a

/-- jsonTag of a GoField (reflect Tag.Get "json"). -/
def GoField.jsonTag : GoField → String
  | .mk _ _ _ j _ => j

/-- descTag of a GoField (reflect Tag.Get "description"). -/
def GoField.descTag : GoField → String
  | .mk _ _ _ _ d => d

/-- typeName mirrors reflect.Type.Name(): the short declared name;
unnamed composite types (slices, arrays, pointers, maps, anonymous
structs) have the empty name. -/
def typeName : GoType → String
  | .prim n => n
  | .str => "string"
  | .namedStruct n _ => n
  | .anonStruct _ _ => ""
  | .slice _ => ""
  | .array _ _ => ""
  | .ptr _ => ""
  | .mapT _ _ => ""
  | .other n _ => n

/-- typeString mirrors reflect.Type.String(): the (package qualified)
printed form of the type. -/
def typeString : GoType → String
  | .prim n => n
  | .str => "string"
  | .namedStruct _ s => s
  | .anonStruct s _ => s
  | .slice e => "[]" ++ typeString e
  | .array n e => "[" ++ toString n ++ "]" ++ typeString e
  | .ptr e => "*" ++ typeString e
  | .mapT k v => "map[" ++ typeString k ++ "]" ++ typeString v
  | .other _ s => s

/-- aget? looks a key up in an association list (Go map read). -/
def aget? {α : Type} : List (String × α) → String → Option α
  | [], _ => none
  | (k, v) :: t, key => if k = key then some v else aget? t key

/-- aset writes a key in an association list (Go map assignment):
replaces an existing binding in place, otherwise appends. -/
def aset {α : Type} : List (String × α) → String → α → List (String × α)
  | [], key, v => [(key, v)]
  | (k, w) :: t, key, v =>
    if k = key then (key, v) :: t else (k, w) :: aset t key v

/-- Registry is the builder's Models map (modelBuilder.Models). -/
abbrev Registry := List (String × Model)

/-- Ctx carries what Go reflection provides globally: the field lists of
named struct types (keyed by their String form) and the set of type
String forms that implement json.Marshaler. -/
structure Ctx where
  env : List (String × List GoField) := []
  marshalers : List String := []

/-- fieldsOf reads a struct type's declared fields (reflect NumField and
Field), via the environment for named structs. -/
def fieldsOf (ctx : Ctx) : GoType → List GoField
  | .namedStruct _ s => (aget? ctx.env s).getD []
  | .anonStruct _ fs => fs
  | _ => []

/-- implementsMarshaler mirrors fieldType.Implements(marshalerType). -/
def implementsMarshaler (ctx : Ctx) (t : GoType) : Bool :=
  ctx.marshalers.contains (typeString t)

/-- strPre decides whether pat is a prefix of s (character lists). -/
def strPre : List Char → List Char → Bool
  | [], _ => true
  | _ :: _, [] => false
  | p :: ps, c :: cs => p = c && strPre ps cs

/-- strFind decides whether pat occurs as a contiguous run inside s, by
trying each suffix; this is the semantics of Go strings.Contains. -/
def strFind (pat s : List Char) : Bool :=
  if strPre pat s then true else
    match s with
    | [] => false
    | _ :: cs => strFind pat cs

/-- goContains embeds Go strings.Contains(s, sub). -/
def goContains (s sub : String) : Bool :=
  strFind sub.data s.data

/-- goDropFirst embeds the Go slicing s[1:] as the builder uses it (the
dropped byte is always an ASCII star or bracket). -/
def goDropFirst (s : String) : String :=
  String.mk s.data.tail

/-- goSplitAux splits a character list at commas, accumulating the
current (reversed) chunk. -/
def goSplitAux : List Char → List Char → List String
  | [], acc => [String.mk acc.reverse]
  | c :: cs, acc =>
    if c = ',' then String.mk acc.reverse :: goSplitAux cs []
    else goSplitAux cs (c :: acc)

/-- goSplit embeds Go strings.Split(s, ","): the comma-separated chunks
of s, with Split("") = [""]. -/
def goSplit (s : String) : List String :=
  goSplitAux s.data []

/-- goReplaceBracketsAux rewrites every non-overlapping left-to-right
occurrence of the two characters bracket-open bracket-close into two
pipes, the semantics of strings.Replace(key, two-char pattern, two-char
replacement, -1) as keyFrom uses it. -/
def goReplaceBracketsAux : List Char → List Char
  | '[' :: ']' :: rest => '|' :: '|' :: goReplaceBracketsAux rest
  | c :: rest => c :: goReplaceBracketsAux rest
  | [] => []

/-- goReplaceBrackets embeds strings.Replace(key, open-close brackets,
double pipe, all occurrences). -/
def goReplaceBrackets (s : String) : String :=
  String.mk (goReplaceBracketsAux s.data)

/-- primitiveTypeList is the fixed allow-list string of isPrimitiveType. -/
def primitiveTypeList : String :=
  "uint8 uint16 uint32 uint64 int int8 int16 int32 int64 float32 float64 bool string byte rune time.Time"

/-- isPrimitiveType mirrors the Go source: strings.Contains of the
allow-list string and the candidate name. -/
def isPrimitiveType (modelName : String) : Bool :=
  goContains primitiveTypeList modelName

/-- keyFrom mirrors modelBuilder.keyFrom: the type's String form, with
brackets replaced for unnamed types. -/
def keyFrom (st : GoType) : String :=
  let key := typeString st
  if (typeName st).length = 0 then goReplaceBrackets key else key

/-- schemaTypeMap is the Go map literal of jsonSchemaType. -/
def schemaTypeMap : List (String × String) :=
  [("uint8", "integer"), ("uint16", "integer"), ("uint32", "integer"),
   ("uint64", "integer"), ("int", "integer"), ("int8", "integer"),
   ("int16", "integer"), ("int32", "integer"), ("int64", "integer"),
   ("byte", "integer"), ("float64", "number"), ("float32", "number"),
   ("bool", "boolean"), ("time.Time", "string")]

/-- jsonSchemaType mirrors the Go lookup table: primitive name to schema
type, unknown names pass through unchanged. -/
def jsonSchemaType (modelName : String) : String :=
  match aget? schemaTypeMap modelName with
  | some mapped => mapped
  | none => modelName

/-- schemaFormatMap is the Go map literal of jsonSchemaFormat. -/
def schemaFormatMap : List (String × String) :=
  [("int", "int32"), ("int32", "int32"), ("int64", "int64"),
   ("byte", "byte"), ("uint8", "byte"), ("float64", "double"),
   ("float32", "float"), ("time.Time", "date-time")]

/-- jsonSchemaFormat mirrors the Go lookup table: primitive name to
format refinement, unknown names map to the empty format. -/
def jsonSchemaFormat (modelName : String) : String :=
  match aget? schemaFormatMap modelName with
  | some mapped => mapped
  | none => ""

/-- jsonNameOfField mirrors the Go source: the first comma-separated
part of the json tag when non-empty, the empty string (skip) when that
part is a dash, and the Go field name otherwise. -/
def jsonNameOfField (field : GoField) : String :=
  if field.jsonTag ≠ "" then
    let s0 := (goSplit field.jsonTag).headD ""
    if s0 = "-" then ""
    else if s0 ≠ "" then s0
    else field.name
  else field.name

/-- isPropertyRequired mirrors the Go source: a field is required unless
its json tag has a second comma-separated part equal to omitempty. -/
def isPropertyRequired (field : GoField) : Bool :=
  if field.jsonTag ≠ "" then
    let s := goSplit field.jsonTag
    if s.length > 1 && (s.getD 1 "") = "omitempty" then false else true
  else true

/-- hasNamedJSONTag mirrors the Go source: the json tag names the field
(first part non-empty) and no later part is the inline marker. -/
def hasNamedJSONTag (field : GoField) : Bool :=
  let parts := goSplit field.jsonTag
  if parts.tail.contains "inline" then false
  else (parts.headD "").length > 0

/-- getElementTypeName mirrors the Go source: pointer elements drop the
star from the String form, unnamed elements get the synthetic nested
name, primitive names are pre-mapped through jsonSchemaType, and other
named elements use keyFrom. -/
def getElementTypeName (modelName jsonName : String) (t : GoType) : String :=
  match t with
  | .ptr _ => goDropFirst (typeString t)
  | _ =>
    if typeName t = "" then modelName ++ "." ++ jsonName
    else if isPrimitiveType (typeName t) then jsonSchemaType (typeName t)
    else keyFrom t

/-- elemOf mirrors reflect.Type.Elem() for slices, arrays, pointers and
maps (Go panics elsewhere; the builder only calls it on those kinds). -/
def elemOf : GoType → GoType
  | .slice e => e
  | .array _ e => e
  | .ptr e => e
  | .mapT _ v => v
  | t => t

/-- effectiveName embeds lines 32-35 of addModel: the canonical name,
replaced by the override when one is given. -/
def effectiveName (st : GoType) (nameOverride : String) : String :=
  if nameOverride ≠ "" then nameOverride else keyFrom st

/-- unwrapPtr embeds lines 228-230 of buildArrayTypeProperty: the
element type, unwrapped one level if it is a pointer. -/
def unwrapPtr : GoType → GoType
  | .ptr p => p
  | t => t

/-- mergeProps embeds the merge loop of buildStructTypeProperty's
embedded-struct branch: each property of the sub-built model is copied
into the parent model, required entries are inherited, and for each
Ref-typed property the referenced Model is copied from the transient
sub-registry into the parent registry (a missing sub entry copies Go's
zero Model). -/
def mergeProps (subModels : Registry) (subModel : Model) :
    List (String × ModelProperty) → Model → Registry → Model × Registry
  | [], model, models => (model, models)
  | (k, v) :: rest, model, models =>
    let model := { model with properties := aset model.properties k v }
    let model :=
      if subModel.required.contains k then
        { model with required := model.required ++ [k] }
      else model
    let models :=
      match v.ref with
      | some r => aset models r ((aget? subModels r).getD {})
      | none => models
    mergeProps subModels subModel rest model models

mutual

/-- addModel mirrors modelBuilder.addModel: compute the canonical name
(or take the override), return nothing for primitive-classified names
and for names already present, otherwise pre-register a placeholder
Model, recurse (slice and array element, or each struct field), store
the completed Model, and return it. Fuel exhaustion returns none. -/
def addModel (ctx : Ctx) (models : Registry) (fuel : Nat)
    (st : GoType) (nameOverride : String) : Option (Registry × Option Model) :=
  match fuel with
  | 0 => none
  | fuel + 1 =>
    let modelName := effectiveName st nameOverride
    if isPrimitiveType modelName then some (models, none)
    else if (aget? models modelName).isSome then some (models, none)
    else
      let sm : Model := { id := modelName, required := [], properties := [] }
      let models := aset models modelName sm
      match st with
      | .slice e =>
        match addModel ctx models fuel e "" with
        | none => none
        | some (models, _) => some (models, some sm)
      | .array _ e =>
        match addModel ctx models fuel e "" with
        | none => none
        | some (models, _) => some (models, some sm)
      | .namedStruct _ _ =>
        match addFields ctx models fuel sm modelName (fieldsOf ctx st) with
        | none => none
        | some (models, sm) => some (aset models modelName sm, some sm)
      | .anonStruct _ _ =>
        match addFields ctx models fuel sm modelName (fieldsOf ctx st) with
        | none => none
        | some (models, sm) => some (aset models modelName sm, some sm)
      | _ => some (models, some sm)

/-- addFields embeds the field loop of addModel: build each field's
property, attach the description tag, and unless the json name came
back empty record the required entry and the property. -/
def addFields (ctx : Ctx) (models : Registry) (fuel : Nat)
    (sm : Model) (modelName : String) (fields : List GoField) :
    Option (Registry × Model) :=
  match fuel with
  | 0 => none
  | fuel + 1 =>
    match fields with
    | [] => some (models, sm)
    | field :: rest =>
      match buildProperty ctx models fuel sm modelName field with
      | none => none
      | some (models, sm, jsonName, prop) =>
        let prop :=
          if field.descTag ≠ "" then { prop with description := field.descTag }
          else prop
        let sm :=
          if jsonName.length ≠ 0 then
            let sm :=
              if isPropertyRequired field then
                { sm with required := sm.required ++ [jsonName] }
              else sm
            { sm with properties := aset sm.properties jsonName prop }
          else sm
        addFields ctx models fuel sm modelName rest

/-- buildProperty mirrors modelBuilder.buildProperty: skip on an empty
json name, degrade custom marshalers to an opaque string, honor the
string coercion tag option, then dispatch on the field's kind, with the
primitive-or-reference fallthrough at the end. -/
def buildProperty (ctx : Ctx) (models : Registry) (fuel : Nat)
    (model : Model) (modelName : String) (field : GoField) :
    Option (Registry × Model × String × ModelProperty) :=
  match fuel with
  | 0 => none
  | fuel + 1 =>
    let jsonName := jsonNameOfField field
    if jsonName.length = 0 then some (models, model, "", {})
    else
      let fieldType := field.typ
      if implementsMarshaler ctx fieldType then
        some (models, model, jsonName,
          { type := some "string",
            format := jsonSchemaFormat (typeString fieldType) })
      else if field.jsonTag ≠ "" ∧
          ((goSplit field.jsonTag).length > 1 ∧
            ((goSplit field.jsonTag).getD 1 "") = "string") then
        some (models, model, jsonName, { type := some "string" })
      else
        match fieldType with
        | .namedStruct _ _ =>
          buildStructTypeProperty ctx models fuel field jsonName model
        | .anonStruct _ _ =>
          buildStructTypeProperty ctx models fuel field jsonName model
        | .slice _ =>
          match buildArrayTypeProperty ctx models fuel field jsonName modelName with
          | none => none
          | some (models, jsonName, prop) => some (models, model, jsonName, prop)
        | .array _ _ =>
          match buildArrayTypeProperty ctx models fuel field jsonName modelName with
          | none => none
          | some (models, jsonName, prop) => some (models, model, jsonName, prop)
        | .ptr _ =>
          match buildPointerTypeProperty ctx models fuel field jsonName modelName with
          | none => none
          | some (models, jsonName, prop) => some (models, model, jsonName, prop)
        | .str =>
          some (models, model, jsonName, { type := some "string" })
        | .mapT _ _ =>
          some (models, model, jsonName, { type := some "any" })
        | _ =>
          if isPrimitiveType (typeString fieldType) then
            some (models, model, jsonName,
              { type := some (jsonSchemaType (typeString fieldType)),
                format := jsonSchemaFormat (typeString fieldType) })
          else if typeName fieldType = "" then
            let nestedTypeName := modelName ++ "." ++ jsonName
            match addModel ctx models fuel fieldType nestedTypeName with
            | none => none
            | some (models, _) =>
              some (models, model, jsonName, { ref := some nestedTypeName })
          else
            some (models, model, jsonName, { ref := some (typeString fieldType) })

/-- buildStructTypeProperty mirrors the Go source: anonymous struct
types get a synthetic nested name and a Ref; an embedded named struct
without a naming tag is flattened through a fresh sub-registry whose
properties, required entries and Ref'd sub-Models are merged into the
parent; any other struct field becomes a Ref to the registered type. -/
def buildStructTypeProperty (ctx : Ctx) (models : Registry) (fuel : Nat)
    (field : GoField) (jsonName : String) (model : Model) :
    Option (Registry × Model × String × ModelProperty) :=
  match fuel with
  | 0 => none
  | fuel + 1 =>
    let fieldType := field.typ
    if (typeName fieldType).length = 0 then
      let anonType := model.id ++ "." ++ jsonName
      match addModel ctx models fuel fieldType anonType with
      | none => none
      | some (models, _) =>
        some (models, model, jsonName, { ref := some anonType })
    else if field.name = typeName fieldType ∧ field.anonymous ∧
        ¬hasNamedJSONTag field then
      match addModel ctx [] fuel fieldType "" with
      | none => none
      | some (subModels, _) =>
        let subKey := keyFrom fieldType
        let subModel := (aget? subModels subKey).getD {}
        let merged := mergeProps subModels subModel subModel.properties model models
        some (merged.2, merged.1, "", {})
    else
      match addModel ctx models fuel fieldType "" with
      | none => none
      | some (models, _) =>
        some (models, model, jsonName, { ref := some (typeString fieldType) })

/-- buildArrayTypeProperty mirrors the Go source: Type is array, the
element name is computed by getElementTypeName, Items gets a Type when
that name is primitive-classified and a Ref otherwise, and the element
type (through one level of pointer) is registered under that name. -/
def buildArrayTypeProperty (ctx : Ctx) (models : Registry) (fuel : Nat)
    (field : GoField) (jsonName modelName : String) :
    Option (Registry × String × ModelProperty) :=
  match fuel with
  | 0 => none
  | fuel + 1 =>
    let elemType := elemOf field.typ
    let elemTypeName := getElementTypeName modelName jsonName elemType
    let items : Item :=
      if isPrimitiveType elemTypeName then
        { type := some (jsonSchemaType elemTypeName) }
      else { ref := some elemTypeName }
    let registered := unwrapPtr elemType
    match addModel ctx models fuel registered elemTypeName with
    | none => none
    | some (models, _) =>
      some (models, jsonName, { type := some "array", items := some items })

/-- buildPointerTypeProperty mirrors the Go source: a pointer to a
slice or array becomes an array property whose Items always carries a
Ref to the element name; any other pointer becomes a Ref to the pointee
(star dropped, synthetic name for anonymous pointees), registering the
pointee. -/
def buildPointerTypeProperty (ctx : Ctx) (models : Registry) (fuel : Nat)
    (field : GoField) (jsonName modelName : String) :
    Option (Registry × String × ModelProperty) :=
  match fuel with
  | 0 => none
  | fuel + 1 =>
    let fieldType := field.typ
    let pointee := elemOf fieldType
    match pointee with
    | .slice e =>
      let elemName := getElementTypeName modelName jsonName e
      match addModel ctx models fuel e elemName with
      | none => none
      | some (models, _) =>
        some (models, jsonName,
          { type := some "array", items := some { ref := some elemName } })
    | .array _ e =>
      let elemName := getElementTypeName modelName jsonName e
      match addModel ctx models fuel e elemName with
      | none => none
      | some (models, _) =>
        some (models, jsonName,
          { type := some "array", items := some { ref := some elemName } })
    | _ =>
      let pType := goDropFirst (typeString fieldType)
      if typeName pointee = "" then
        let elemName := modelName ++ "." ++ jsonName
        match addModel ctx models fuel pointee elemName with
        | none => none
        | some (models, _) =>
          some (models, jsonName, { ref := some elemName })
      else
        match addModel ctx models fuel pointee "" with
        | none => none
        | some (models, _) =>
          some (models, jsonName, { ref := some pType })

end

/-- GoSample pairs a sample's reflected type with its optional
PostBuildModel hook (present exactly when the sample's dynamic type
satisfies the ModelBuildable interface). -/
structure GoSample where
  typ : GoType
  postBuild : Option (Model → Model) := none

/-- addModelFrom mirrors modelBuilder.addModelFrom: register the
sample's type and, when a Model came back and the sample is
ModelBuildable, run the post-build hook and store its result under the
returned Id. The returned list records each Model the hook was applied
to, so hook invocations can be counted. -/
def addModelFrom (ctx : Ctx) (models : Registry) (fuel : Nat)
    (sample : GoSample) : Option (Registry × List Model) :=
  match fuel with
  | 0 => none
  | fuel + 1 =>
    match addModel ctx models fuel sample.typ "" with
    | none => none
    | some (models, some m) =>
      match sample.postBuild with
      | some hook =>
        let m2 := hook m
        some (aset models m2.id m2, [m])
      | none => some (models, [])
    | some (models, none) => some (models, [])

/-! Basic lemmas about the association-list map operations. -/

/-- aget? after aset behaves like a map update. -/
theorem aget?_aset {α : Type} (l : List (String × α)) (k : String) (v : α)
    (q : String) :
    aget? (aset l k v) q = if k = q then some v else aget? l q := by
  induction l with
  | nil => simp [aset, aget?]
  | cons hd t ih =>
    obtain ⟨k1, w⟩ := hd
    by_cases hk : k1 = k
    · subst hk
      by_cases hq : k1 = q <;> simp [aset, aget?, hq]
    · by_cases hq : k1 = q
      · subst hq
        have hkq : ¬k = k1 := fun h => hk h.symm
        simp [aset, aget?, hk, hkq]
      · simp [aset, aget?, hk, hq, ih]

/-- aset never removes a key. -/
theorem aget?_aset_isSome {α : Type} {l : List (String × α)} {q : String}
    (k : String) (v : α) (h : (aget? l q).isSome = true) :
    (aget? (aset l k v) q).isSome = true := by
  rw [aget?_aset]
  split <;> simp [h]

/-- aget? only returns values whose pair is in the list, with the
queried key. -/
theorem aget?_all {α : Type} {f : String × α → Bool} {l : List (String × α)}
    {k : String} {v : α} (hl : l.all f = true) (h : aget? l k = some v) :
    f (k, v) = true := by
  induction l with
  | nil => simp [aget?] at h
  | cons hd t ih =>
    obtain ⟨k1, w⟩ := hd
    simp only [List.all_cons, Bool.and_eq_true] at hl
    simp only [aget?] at h
    split at h
    · rename_i hk
      cases h
      subst hk
      exact hl.1
    · exact ih hl.2 h

/-- aset preserves a pointwise Bool predicate over all entries. -/
theorem all_aset {α : Type} {f : String × α → Bool} {l : List (String × α)}
    {k : String} {v : α} (hl : l.all f = true) (hv : f (k, v) = true) :
    (aset l k v).all f = true := by
  induction l with
  | nil => simp [aset, hv]
  | cons hd t ih =>
    obtain ⟨k1, w⟩ := hd
    simp only [List.all_cons, Bool.and_eq_true] at hl
    by_cases hk : k1 = k
    · simp [aset, hk, hv, hl.2]
    · simp [aset, hk, hl.1, ih hl.2]

/-! Lemmas connecting the embedded strings.Contains to substring
membership. -/

/-- strPre decides list prefixhood. -/
theorem strPre_iff (pat s : List Char) : strPre pat s = true ↔ pat <+: s := by
  induction pat generalizing s with
  | nil => simp [strPre]
  | cons p ps ih =>
    cases s with
    | nil => simp [strPre]
    | cons c cs =>
      simp [strPre, List.cons_prefix_cons, ih, And.comm]

/-- strFind decides list substring membership. -/
theorem strFind_iff (pat s : List Char) : strFind pat s = true ↔ pat <:+: s := by
  induction s with
  | nil =>
    rw [strFind]
    constructor
    · intro h
      split at h
      · rename_i hp
        have := (strPre_iff pat []).mp hp
        simp_all
      · simp at h
    · intro h
      rw [List.infix_nil] at h
      subst h
      simp [strPre]
  | cons c cs ih =>
    rw [strFind, List.infix_cons_iff]
    constructor
    · intro h
      split at h
      · rename_i hp
        exact Or.inl ((strPre_iff _ _).mp hp)
      · exact Or.inr (ih.mp h)
    · intro h
      rcases h with h | h
      · simp [(strPre_iff _ _).mpr h]
      · split
        · rfl
        · exact ih.mpr h

/-! Registry-domain monotonicity: the builder never removes a key from
the Models map. -/

/-- domMono says every key present in the first registry is present in
the second. -/
def domMono (a b : Registry) : Prop :=
  ∀ k, (aget? a k).isSome = true → (aget? b k).isSome = true

/-- domMono is reflexive. -/
theorem domMono_rfl (l : Registry) : domMono l l := fun _ h => h

/-- domMono is transitive. -/
theorem domMono_trans {a b c : Registry} (h1 : domMono a b)
    (h2 : domMono b c) : domMono a c := fun k h => h2 k (h1 k h)

/-- aset only grows the domain. -/
theorem domMono_aset (l : Registry) (k : String) (v : Model) :
    domMono l (aset l k v) := fun _ hq => aget?_aset_isSome k v hq

/-- mergeProps only grows the parent registry's domain. -/
theorem mergeProps_mono (subModels : Registry) (subModel : Model) :
    ∀ (entries : List (String × ModelProperty)) (model : Model)
      (models : Registry),
      domMono models (mergeProps subModels subModel entries model models).2 := by
  intro entries
  induction entries with
  | nil => intro model models; exact domMono_rfl _
  | cons e rest ih =>
    intro model models
    obtain ⟨k, v⟩ := e
    rw [mergeProps]
    cases hv : v.ref with
    | none => simpa [hv] using ih _ _
    | some r =>
      simp only [hv]
      exact domMono_trans (domMono_aset _ _ _) (ih _ _)

/-- builder_mono: every builder function only grows the registry's
domain (Go map assignment never deletes). -/
theorem builder_mono : ∀ fuel : Nat,
    (∀ ctx models st nm res, addModel ctx models fuel st nm = some res →
      domMono models res.1) ∧
    (∀ ctx models sm mn fs res, addFields ctx models fuel sm mn fs = some res →
      domMono models res.1) ∧
    (∀ ctx models model mn f res, buildProperty ctx models fuel model mn f = some res →
      domMono models res.1) ∧
    (∀ ctx models f jn model res, buildStructTypeProperty ctx models fuel f jn model = some res →
      domMono models res.1) ∧
    (∀ ctx models f jn mn res, buildArrayTypeProperty ctx models fuel f jn mn = some res →
      domMono models res.1) ∧
    (∀ ctx models f jn mn res, buildPointerTypeProperty ctx models fuel f jn mn = some res →
      domMono models res.1) := by
  intro fuel
  induction fuel with
  | zero =>
    refine ⟨?_, ?_, ?_, ?_, ?_, ?_⟩
    · intro ctx models st nm res h
      simp [addModel] at h
    · intro ctx models sm mn fs res h
      simp [addFields] at h
    · intro ctx models model mn f res h
      simp [buildProperty] at h
    · intro ctx models f jn model res h
      simp [buildStructTypeProperty] at h
    · intro ctx models f jn mn res h
      simp [buildArrayTypeProperty] at h
    · intro ctx models f jn mn res h
      simp [buildPointerTypeProperty] at h
  | succ n ih =>
    obtain ⟨ihA, ihF, ihP, ihS, ihR, ihQ⟩ := ih
    refine ⟨?_, ?_, ?_, ?_, ?_, ?_⟩
    · -- addModel
      intro ctx models st nm res h
      simp only [addModel] at h
      split at h
      · cases h; exact domMono_rfl _
      · split at h
        · cases h; exact domMono_rfl _
        · split at h
          · -- slice
            split at h
            · exact absurd h (by simp)
            · rename_i heq
              cases h
              have hm := ihA _ _ _ _ _ heq
              exact domMono_trans (domMono_aset _ _ _) hm
          · -- array
            split at h
            · exact absurd h (by simp)
            · rename_i heq
              cases h
              have hm := ihA _ _ _ _ _ heq
              exact domMono_trans (domMono_aset _ _ _) hm
          · -- named struct
            split at h
            · exact absurd h (by simp)
            · rename_i heq
              cases h
              have hm := ihF _ _ _ _ _ _ heq
              exact domMono_trans
                (domMono_trans (domMono_aset _ _ _) hm)
                (domMono_aset _ _ _)
          · -- anonymous struct
            split at h
            · exact absurd h (by simp)
            · rename_i heq
              cases h
              have hm := ihF _ _ _ _ _ _ heq
              exact domMono_trans
                (domMono_trans (domMono_aset _ _ _) hm)
                (domMono_aset _ _ _)
          · -- other kinds
            cases h; exact domMono_aset _ _ _
    · -- addFields
      intro ctx models sm mn fs res h
      simp only [addFields] at h
      split at h
      · cases h; exact domMono_rfl _
      · split at h
        · exact absurd h (by simp)
        · rename_i heq
          have h1 := ihP _ _ _ _ _ _ heq
          have h2 := ihF _ _ _ _ _ _ h
          exact domMono_trans h1 h2
    · -- buildProperty
      intro ctx models model mn f res h
      simp only [buildProperty] at h
      split at h
      · cases h; exact domMono_rfl _
      · split at h
        · cases h; exact domMono_rfl _
        · split at h
          · cases h; exact domMono_rfl _
          · split at h
            · exact ihS _ _ _ _ _ _ h
            · exact ihS _ _ _ _ _ _ h
            · split at h
              · exact absurd h (by simp)
              · rename_i heq
                cases h
                have hm := ihR _ _ _ _ _ _ heq
                exact hm
            · split at h
              · exact absurd h (by simp)
              · rename_i heq
                cases h
                have hm := ihR _ _ _ _ _ _ heq
                exact hm
            · split at h
              · exact absurd h (by simp)
              · rename_i heq
                cases h
                have hm := ihQ _ _ _ _ _ _ heq
                exact hm
            · cases h; exact domMono_rfl _
            · cases h; exact domMono_rfl _
            · split at h
              · cases h; exact domMono_rfl _
              · split at h
                · split at h
                  · exact absurd h (by simp)
                  · rename_i heq
                    cases h
                    have hm := ihA _ _ _ _ _ heq
                    exact hm
                · cases h; exact domMono_rfl _
    · -- buildStructTypeProperty
      intro ctx models f jn model res h
      simp only [buildStructTypeProperty] at h
      split at h
      · split at h
        · exact absurd h (by simp)
        · rename_i heq
          cases h
          have hm := ihA _ _ _ _ _ heq
          exact hm
      · split at h
        · split at h
          · exact absurd h (by simp)
          · rename_i heq
            cases h
            exact mergeProps_mono _ _ _ _ _
        · split at h
          · exact absurd h (by simp)
          · rename_i heq
            cases h
            have hm := ihA _ _ _ _ _ heq
            exact hm
    · -- buildArrayTypeProperty
      intro ctx models f jn mn res h
      simp only [buildArrayTypeProperty] at h
      split at h
      · exact absurd h (by simp)
      · rename_i heq
        cases h
        have hm := ihA _ _ _ _ _ heq
        exact hm
    · -- buildPointerTypeProperty
      intro ctx models f jn mn res h
      simp only [buildPointerTypeProperty] at h
      split at h
      · split at h
        · exact absurd h (by simp)
        · rename_i heq
          cases h
          have hm := ihA _ _ _ _ _ heq
          exact hm
      · split at h
        · exact absurd h (by simp)
        · rename_i heq
          cases h
          have hm := ihA _ _ _ _ _ heq
          exact hm
      · split at h
        · split at h
          · exact absurd h (by simp)
          · rename_i heq
            cases h
            have hm := ihA _ _ _ _ _ heq
            exact hm
        · split at h
          · exact absurd h (by simp)
          · rename_i heq
            cases h
            have hm := ihA _ _ _ _ _ heq
            exact hm

/-! Small helper lemmas used by the claim proofs. -/

/-- A string has length zero exactly when it is empty. -/
theorem string_length_eq_zero {s : String} : s.length = 0 ↔ s = "" := by
  cases s with
  | mk data =>
    cases data with
    | nil => simp
    | cons c cs =>
      simp only [String.length_mk, List.length_cons]
      constructor
      · intro h
        exact absurd h (by simp)
      · intro h
        have hd := congrArg String.data h
        simp at hd

/-- aset followed by aget? at the same key returns the new value. -/
theorem aget?_aset_self {α : Type} (l : List (String × α)) (k : String)
    (v : α) : aget? (aset l k v) k = some v := by
  rw [aget?_aset]
  simp

/-- Dropping the star from a starred string gives back the string. -/
theorem goDropFirst_star (s : String) : goDropFirst ("*" ++ s) = s := by
  cases s with
  | mk data => rfl

/-- With no override, the effective model name is keyFrom. -/
theorem effectiveName_default (st : GoType) :
    effectiveName st "" = keyFrom st := by
  simp [effectiveName]

/-- keyFrom of a named struct with a nonempty short name is its
qualified String form. -/
theorem keyFrom_named {n : String} (s : String) (hn : n ≠ "") :
    keyFrom (GoType.namedStruct n s) = s := by
  simp [keyFrom, typeName, typeString, string_length_eq_zero, hn]

/-- addModel_key_present: a successful addModel leaves the effective
model name either classified primitive or present in the resulting
registry (it inserts the placeholder before recursing and nothing ever
deletes a key). -/
theorem addModel_key_present (fuel : Nat) (ctx : Ctx) (models : Registry)
    (st : GoType) (nm : String) (res : Registry × Option Model)
    (h : addModel ctx models fuel st nm = some res) :
    isPrimitiveType (effectiveName st nm) = true ∨
      (aget? res.1 (effectiveName st nm)).isSome = true := by
  cases fuel with
  | zero => simp [addModel] at h
  | succ n =>
    simp only [addModel] at h
    split at h
    · rename_i hp
      exact Or.inl hp
    · split at h
      · rename_i hg
        cases h
        exact Or.inr hg
      · right
        split at h
        · -- slice
          split at h
          · exact absurd h (by simp)
          · rename_i heq
            cases h
            have hm := (builder_mono n).1 _ _ _ _ _ heq
            exact hm _ (by rw [aget?_aset_self]; rfl)
        · -- array
          split at h
          · exact absurd h (by simp)
          · rename_i heq
            cases h
            have hm := (builder_mono n).1 _ _ _ _ _ heq
            exact hm _ (by rw [aget?_aset_self]; rfl)
        · -- named struct
          split at h
          · exact absurd h (by simp)
          · rename_i heq
            cases h
            rw [aget?_aset_self]
            rfl
        · -- anonymous struct
          split at h
          · exact absurd h (by simp)
          · rename_i heq
            cases h
            rw [aget?_aset_self]
            rfl
        · -- other kinds
          cases h
          rw [aget?_aset_self]
          rfl

/-! Concrete fixtures shared by several witnesses: a self-referential
Go struct type main.Node with a single pointer field Next. -/

/-- nodeField is the field Next *main.Node of the fixture struct. -/
def nodeField : GoField :=
  GoField.mk "Next" (GoType.ptr (GoType.namedStruct "Node" "main.Node")) false "" ""

/-- nodeCtx is the reflection context of the fixture: one named struct
main.Node whose only field is Next *main.Node. -/
def nodeCtx : Ctx :=
  { env := [("main.Node", [nodeField])], marshalers := [] }

/-- nodeModel is the Model the builder synthesizes for main.Node. -/
def nodeModel : Model :=
  { id := "main.Node", required := ["Next"],
    properties := [("Next",
      { type := none, format := "", ref := some "main.Node",
        items := none, description := "" })] }

/-! Claim C2. -/

/-- C2: registering the same sample type twice is idempotent: whenever a
first addModelFrom succeeds and produces a registry, a second
addModelFrom on that registry with the same sample returns it unchanged
(the second addModel finds the canonical name primitive-classified or
already present and returns no Model) and invokes the post-build hook on
nothing (the empty invocation trace). -/
theorem c2_register_idempotent (ctx : Ctx) (models models1 : Registry)
    (fuel fuel2 : Nat) (sample : GoSample) (trace : List Model)
    (h : addModelFrom ctx models fuel sample = some (models1, trace)) :
    addModelFrom ctx models1 (fuel2 + 2) sample = some (models1, []) := by
  cases fuel with
  | zero => simp [addModelFrom] at h
  | succ n =>
    simp only [addModelFrom] at h
    have hkey : isPrimitiveType (effectiveName sample.typ "") = true ∨
        (aget? models1 (effectiveName sample.typ "")).isSome = true := by
      split at h
      · exact absurd h (by simp)
      · rename_i heq
        split at h
        · cases h
          rcases addModel_key_present n ctx models sample.typ "" _ heq
            with hk | hk
          · exact Or.inl hk
          · exact Or.inr (aget?_aset_isSome _ _ hk)
        · cases h
          exact addModel_key_present n ctx models sample.typ "" _ heq
      · rename_i heq
        cases h
        exact addModel_key_present n ctx models sample.typ "" _ heq
    have h2 : addModel ctx models1 (fuel2 + 1) sample.typ "" =
        some (models1, none) := by
      simp only [addModel]
      split
      · rfl
      · split
        · rfl
        · rename_i h1 hg
          rcases hkey with hk | hk
          · exact absurd hk h1
          · exact absurd hk hg
    simp only [addModelFrom]
    rw [h2]

/-- C2 witness: a concrete double registration of a self-referential
struct sample returns the identical one-entry registry and an empty
hook-invocation trace. -/
theorem c2_register_idempotent_witness :
    addModelFrom nodeCtx [("main.Node", nodeModel)] 20
      { typ := GoType.namedStruct "Node" "main.Node", postBuild := none } =
      some ([("main.Node", nodeModel)], []) :=
  c2_register_idempotent nodeCtx [] [("main.Node", nodeModel)] 20 18
    { typ := GoType.namedStruct "Node" "main.Node", postBuild := none } []
    (by decide)

/-! Claim C9. -/

/-- C9: the post-build hook runs exactly once per top-level registration
of a ModelBuildable sample, receives the Model addModel returned, and
its result replaces the registry entry under the result's Id; when
addModel returns no Model, or the sample is not ModelBuildable, the hook
is applied to nothing — in particular it is never applied during
addModel itself, so transitively-discovered sub-Models never see it. -/
theorem c9_postbuild_hook (ctx : Ctx) (models ms : Registry) (fuel : Nat)
    (t : GoType) (hook : Model → Model) :
    (∀ m, addModel ctx models fuel t "" = some (ms, some m) →
      addModelFrom ctx models (fuel + 1) { typ := t, postBuild := some hook } =
        some (aset ms (hook m).id (hook m), [m])) ∧
    (addModel ctx models fuel t "" = some (ms, none) →
      addModelFrom ctx models (fuel + 1) { typ := t, postBuild := some hook } =
        some (ms, [])) ∧
    (∀ r, addModel ctx models fuel t "" = some (ms, r) →
      addModelFrom ctx models (fuel + 1) { typ := t, postBuild := none } =
        some (ms, [])) := by
  refine ⟨?_, ?_, ?_⟩
  · intro m heq
    simp only [addModelFrom]
    rw [heq]
  · intro heq
    simp only [addModelFrom]
    rw [heq]
  · intro r heq
    simp only [addModelFrom]
    rw [heq]
    cases r <;> rfl

/-- C9 witness: concrete run in which the hook renames the finished
Model; the trace records exactly one invocation, on the finished Model,
and the registry gains the hook result under its new Id. -/
theorem c9_postbuild_hook_witness :
    addModelFrom nodeCtx [] 20
      { typ := GoType.namedStruct "Node" "main.Node",
        postBuild := some (fun m => { m with id := "custom.Node" }) } =
      some ([("main.Node", nodeModel),
        ("custom.Node", { nodeModel with id := "custom.Node" })],
        [nodeModel]) := by
  have h := (c9_postbuild_hook nodeCtx [] [("main.Node", nodeModel)] 19
    (GoType.namedStruct "Node" "main.Node")
    (fun m => { m with id := "custom.Node" })).1 nodeModel (by decide)
  exact h.trans (by decide)

/-! Claim C1. -/

/-- C1: registration of self-referential and mutually-referential struct
types terminates within fixed finite fuel (no unbounded recursion), and
afterwards the registry holds a Model for every type in the cycle, each
with a Ref-typed property naming the other: the placeholder Model that
addModel inserts under the canonical name before recursing makes the
recursive pointer reference return immediately at the name-presence
guard. -/
theorem c1_cycle_registration :
    (∀ nodeStr nodeName f : String,
      isPrimitiveType nodeStr = false → nodeName ≠ "" → f ≠ "" →
      addModelFrom
        { env :=
            [(nodeStr,
              [GoField.mk f (GoType.ptr (GoType.namedStruct nodeName nodeStr))
                false "" ""])],
          marshalers := [] }
        [] 12 { typ := GoType.namedStruct nodeName nodeStr, postBuild := none } =
        some ([(nodeStr,
          { id := nodeStr, required := [f],
            properties :=
              [(f,
                { type := none, format := "", ref := some nodeStr,
                  items := none, description := "" })] })], [])) ∧
    (∀ aStr aName bStr bName fa fb : String,
      isPrimitiveType aStr = false → isPrimitiveType bStr = false →
      aName ≠ "" → bName ≠ "" → fa ≠ "" → fb ≠ "" → aStr ≠ bStr →
      addModelFrom
        { env :=
            [(aStr,
              [GoField.mk fa (GoType.ptr (GoType.namedStruct bName bStr))
                false "" ""]),
             (bStr,
              [GoField.mk fb (GoType.ptr (GoType.namedStruct aName aStr))
                false "" ""])],
          marshalers := [] }
        [] 12 { typ := GoType.namedStruct aName aStr, postBuild := none } =
        some ([(aStr,
          { id := aStr, required := [fa],
            properties :=
              [(fa,
                { type := none, format := "", ref := some bStr,
                  items := none, description := "" })] }),
          (bStr,
          { id := bStr, required := [fb],
            properties :=
              [(fb,
                { type := none, format := "", ref := some aStr,
                  items := none, description := "" })] })], [])) := by
  constructor
  · intro nodeStr nodeName f hp hn hf
    simp [addModelFrom, addModel, addFields, buildProperty,
      buildPointerTypeProperty, effectiveName, keyFrom, typeName, typeString,
      string_length_eq_zero, fieldsOf, aget?, aset, jsonNameOfField,
      GoField.name, GoField.typ, GoField.anonymous, GoField.jsonTag,
      GoField.descTag, implementsMarshaler, isPropertyRequired,
      goDropFirst_star, elemOf, hp, hn, hf]
  · intro aStr aName bStr bName fa fb hpa hpb hna hnb hfa hfb hab
    simp [addModelFrom, addModel, addFields, buildProperty,
      buildPointerTypeProperty, effectiveName, keyFrom, typeName, typeString,
      string_length_eq_zero, fieldsOf, aget?, aset, jsonNameOfField,
      GoField.name, GoField.typ, GoField.anonymous, GoField.jsonTag,
      GoField.descTag, implementsMarshaler, isPropertyRequired,
      goDropFirst_star, elemOf, hpa, hpb, hna, hnb, hfa, hfb, hab]

/-- C1 witness: concrete self-referential type main.Node and concrete
mutually-referential pair main.A and main.B. -/
theorem c1_cycle_registration_witness :
    (addModelFrom
      { env :=
          [("main.Node",
            [GoField.mk "Next" (GoType.ptr (GoType.namedStruct "Node" "main.Node"))
              false "" ""])],
        marshalers := [] }
      [] 12 { typ := GoType.namedStruct "Node" "main.Node", postBuild := none } =
      some ([("main.Node",
        { id := "main.Node", required := ["Next"],
          properties :=
            [("Next",
              { type := none, format := "", ref := some "main.Node",
                items := none, description := "" })] })], [])) ∧
    (addModelFrom
      { env :=
          [("main.A",
            [GoField.mk "B0" (GoType.ptr (GoType.namedStruct "B" "main.B"))
              false "" ""]),
           ("main.B",
            [GoField.mk "A0" (GoType.ptr (GoType.namedStruct "A" "main.A"))
              false "" ""])],
        marshalers := [] }
      [] 12 { typ := GoType.namedStruct "A" "main.A", postBuild := none } =
      some ([("main.A",
        { id := "main.A", required := ["B0"],
          properties :=
            [("B0",
              { type := none, format := "", ref := some "main.B",
                items := none, description := "" })] }),
        ("main.B",
        { id := "main.B", required := ["A0"],
          properties :=
            [("A0",
              { type := none, format := "", ref := some "main.A",
                items := none, description := "" })] })], [])) :=
  ⟨c1_cycle_registration.1 "main.Node" "Node" "Next" (by decide) (by decide)
      (by decide),
    c1_cycle_registration.2 "main.A" "A" "main.B" "B" "B0" "A0" (by decide)
      (by decide) (by decide) (by decide) (by decide) (by decide) (by decide)⟩

/-! Claim C3. -/

/-- blobCtx is the fixture for an array-of-bytes field: struct main.Blob
with the single field Content []uint8 tagged json content. -/
def blobCtx : Ctx :=
  { env := [("main.Blob",
      [GoField.mk "Content" (GoType.slice (GoType.prim "uint8")) false
        "content" ""])],
    marshalers := [] }

/-- blobModel is the Model the builder synthesizes for main.Blob: note
the Items carries a Ref (not a Type) to the mapped name integer. -/
def blobModel : Model :=
  { id := "main.Blob", required := ["content"],
    properties :=
      [("content",
        { type := some "array", format := "", ref := none,
          items := some { type := none, ref := some "integer" },
          description := "" })] }

/-- C3: evaluation at the failing input, a struct field of type []uint8.
getElementTypeName pre-maps the element name uint8 to integer, the
substring classifier does not accept integer, so the synthesized
property carries Items.Ref = integer with Items.Type empty — the claim
(and the spec) say Items.Type = integer — and addModel then registers a
spurious empty Model named integer, although the builder's own rule is
that primitive types get no Model. -/
theorem c3_uint8_slice_items_ref :
    getElementTypeName "main.Blob" "content" (GoType.prim "uint8") = "integer" ∧
    isPrimitiveType "uint8" = true ∧
    isPrimitiveType "integer" = false ∧
    addModel blobCtx [] 20 (GoType.namedStruct "Blob" "main.Blob") "" =
      some ([("main.Blob", blobModel),
        ("integer", { id := "integer", required := [], properties := [] })],
        some blobModel) := by
  refine ⟨by decide, by decide, by decide, by decide⟩

/-! Claim C4. -/

/-- primitiveTypeNames is the allow-list as the specification enumerates
it: the sixteen scalar type names. -/
def primitiveTypeNames : List String :=
  ["uint8", "uint16", "uint32", "uint64", "int", "int8", "int16", "int32",
   "int64", "float32", "float64", "bool", "string", "byte", "rune",
   "time.Time"]

/-- C4 counterexample: the name int3 is not on the allow-list, yet the
builder classifies it primitive, because classification is substring
containment in the allow-list string (int3 occurs inside int32). -/
theorem c4_counterexample :
    isPrimitiveType "int3" = true ∧ "int3" ∉ primitiveTypeNames := by
  refine ⟨by decide, by decide⟩

/-- C4 amended: a name is classified primitive iff it occurs as a
contiguous substring of the fixed allow-list string; in particular every
name on the allow-list is classified primitive, and any name classified
primitive (on the list or not) is never turned into a Model — addModel
returns immediately with no Model and an unchanged registry. -/
theorem c4_isPrimitiveType_substring :
    (∀ s : String, isPrimitiveType s = true ↔ s.data <:+: primitiveTypeList.data) ∧
    primitiveTypeNames.all (fun s => isPrimitiveType s) = true ∧
    (∀ ctx models fuel st nm,
      isPrimitiveType (effectiveName st nm) = true →
      addModel ctx models (fuel + 1) st nm = some (models, none)) := by
  refine ⟨?_, by decide, ?_⟩
  · intro s
    exact strFind_iff s.data primitiveTypeList.data
  · intro ctx models fuel st nm h
    simp only [addModel]
    rw [if_pos h]

/-- C4 witness: registering a plain int sample leaves the registry
unchanged and produces no Model. -/
theorem c4_isPrimitiveType_substring_witness :
    addModel { env := [], marshalers := [] } [] 1 (GoType.prim "int") "" =
      some ([], none) :=
  c4_isPrimitiveType_substring.2.2 { env := [], marshalers := [] } [] 0
    (GoType.prim "int") "" (by decide)

/-! Claim C6. -/

/-- C6 counterexample: for a pointer to a slice of strings, the pointer
rule emits Items.Ref = string, while the slice rule on the pointee emits
Items.Type = string: the two properties differ on primitive elements. -/
theorem c6_counterexample :
    buildPointerTypeProperty { env := [], marshalers := [] } [] 20
        (GoField.mk "Xs" (GoType.ptr (GoType.slice GoType.str)) false "" "")
        "Xs" "main.P" =
      some ([], "Xs",
        { type := some "array", format := "", ref := none,
          items := some { type := none, ref := some "string" },
          description := "" }) ∧
    buildArrayTypeProperty { env := [], marshalers := [] } [] 20
        (GoField.mk "Xs" (GoType.slice GoType.str) false "" "")
        "Xs" "main.P" =
      some ([], "Xs",
        { type := some "array", format := "", ref := none,
          items := some { type := some "string", ref := none },
          description := "" }) ∧
    ({ type := none, ref := some "string" } : Item) ≠
      { type := some "string", ref := none } := by
  refine ⟨by decide, by decide, by decide⟩

/-- C6 amended: the pointer-to-list rule produces the same property and
registry effect as the slice rule on the pointee exactly in the
non-primitive case: when the element's computed name is not classified
primitive and the element is not itself a pointer, the two rules agree
(both emit Type = array, Items.Ref = element name and register the
element); for primitive-classified element names they differ, the slice
rule emitting Items.Type and the pointer rule emitting Items.Ref. -/
theorem c6_ptr_to_slice_vs_slice (ctx : Ctx) (models : Registry) (fuel : Nat)
    (nm tag desc jsonName modelName : String) (anon : Bool) (k : Nat)
    (e : GoType) (he : unwrapPtr e = e)
    (hp : isPrimitiveType (getElementTypeName modelName jsonName e) = false) :
    (buildPointerTypeProperty ctx models (fuel + 1)
        (GoField.mk nm (GoType.ptr (GoType.slice e)) anon tag desc)
        jsonName modelName =
      buildArrayTypeProperty ctx models (fuel + 1)
        (GoField.mk nm (GoType.slice e) anon tag desc) jsonName modelName) ∧
    (buildPointerTypeProperty ctx models (fuel + 1)
        (GoField.mk nm (GoType.ptr (GoType.array k e)) anon tag desc)
        jsonName modelName =
      buildArrayTypeProperty ctx models (fuel + 1)
        (GoField.mk nm (GoType.array k e) anon tag desc) jsonName modelName) := by
  constructor
  · simp only [buildPointerTypeProperty, buildArrayTypeProperty, elemOf,
      GoField.typ, he, hp]
    cases haddModel : addModel ctx models fuel e
        (getElementTypeName modelName jsonName e) <;> simp [hp]
  · simp only [buildPointerTypeProperty, buildArrayTypeProperty, elemOf,
      GoField.typ, he, hp]
    cases haddModel : addModel ctx models fuel e
        (getElementTypeName modelName jsonName e) <;> simp [hp]

/-- C6 witness: pointer to slice of a named struct type agrees with the
slice rule at concrete input. -/
theorem c6_ptr_to_slice_vs_slice_witness :
    buildPointerTypeProperty { env := [], marshalers := [] } [] 20
        (GoField.mk "Xs" (GoType.ptr (GoType.slice (GoType.namedStruct "S" "main.S")))
          false "" "") "Xs" "main.P" =
      buildArrayTypeProperty { env := [], marshalers := [] } [] 20
        (GoField.mk "Xs" (GoType.slice (GoType.namedStruct "S" "main.S"))
          false "" "") "Xs" "main.P" :=
  (c6_ptr_to_slice_vs_slice { env := [], marshalers := [] } [] 19 "Xs" "" ""
    "Xs" "main.P" false 0 (GoType.namedStruct "S" "main.S") rfl
    (by decide)).1

/-! Claims C5 and C10. -/

/-- stringProp is the property the builder emits for a plain string
field (by the string kind arm or the string-coercion tag arm alike). -/
def stringProp : ModelProperty :=
  { type := some "string", format := "", ref := none, items := none,
    description := "" }

/-- singleFieldModel is the Model of a one-field struct whose only
property is named j, required when req holds. -/
def singleFieldModel (id j : String) (req : Bool) (prop : ModelProperty) :
    Model :=
  { id := id, required := if req then [j] else [], properties := [(j, prop)] }

/-- C5 counterexample: in the tag x,string,omitempty the omitempty
option occurs among the comma-separated options (third position), yet
the field is still classified required and lands in Required: only the
option directly after the name is consulted. -/
theorem c5_counterexample :
    "omitempty" ∈ goSplit "x,string,omitempty" ∧
    isPropertyRequired (GoField.mk "F" GoType.str false "x,string,omitempty" "") =
      true ∧
    addModel
        { env := [("main.S",
            [GoField.mk "F" GoType.str false "x,string,omitempty" ""])],
          marshalers := [] }
        [] 6 (GoType.namedStruct "S" "main.S") "" =
      some ([("main.S", singleFieldModel "main.S" "x" true stringProp)],
        some (singleFieldModel "main.S" "x" true stringProp)) := by
  refine ⟨by decide, by decide, by decide⟩

/-- C5 amended: a field is required unless the comma-separated part of
its json tag directly after the name (index 1) is exactly omitempty;
omitempty in any later position is ignored. A non-skipped field is
present in Properties either way, and appears in Required exactly when
isPropertyRequired accepts it. -/
theorem c5_omitempty_first_option_only :
    (∀ field : GoField,
      isPropertyRequired field = false ↔
        (field.jsonTag ≠ "" ∧ (goSplit field.jsonTag).length > 1 ∧
          (goSplit field.jsonTag).getD 1 "" = "omitempty")) ∧
    (∀ sStr sName fname tag j : String,
      isPrimitiveType sStr = false → sName ≠ "" →
      jsonNameOfField (GoField.mk fname GoType.str false tag "") = j → j ≠ "" →
      addModel
          { env := [(sStr, [GoField.mk fname GoType.str false tag ""])],
            marshalers := [] }
          [] 6 (GoType.namedStruct sName sStr) "" =
        some ([(sStr, singleFieldModel sStr j
            (isPropertyRequired (GoField.mk fname GoType.str false tag ""))
            stringProp)],
          some (singleFieldModel sStr j
            (isPropertyRequired (GoField.mk fname GoType.str false tag ""))
            stringProp))) := by
  constructor
  · intro field
    by_cases h1 : field.jsonTag = ""
    · simp [isPropertyRequired, h1]
    · by_cases h2 : (goSplit field.jsonTag).length > 1
      · by_cases h3 : (goSplit field.jsonTag).getD 1 "" = "omitempty"
        · simp [isPropertyRequired, h1, h2, h3]
        · simp [isPropertyRequired, h1, h2, h3]
      · simp [isPropertyRequired, h1, h2]
  · intro sStr sName fname tag j hp hn hj hjne
    by_cases hso : ((GoField.mk fname GoType.str false tag "").jsonTag ≠ "" ∧
        ((goSplit (GoField.mk fname GoType.str false tag "").jsonTag).length > 1 ∧
          (goSplit (GoField.mk fname GoType.str false tag "").jsonTag).getD 1 "" =
            "string"))
    all_goals by_cases hreq :
      isPropertyRequired (GoField.mk fname GoType.str false tag "") = true
    all_goals
      simp [addModel, addFields, buildProperty, effectiveName, keyFrom,
        typeName, typeString, string_length_eq_zero, fieldsOf, aget?, aset,
        implementsMarshaler, singleFieldModel, stringProp, GoField.name,
        GoField.typ, GoField.anonymous, GoField.jsonTag, GoField.descTag,
        hp, hn, hj, hjne, hso, hreq]

/-- C5 witness: a field tagged name,omitempty is suppressed from
Required but still present in Properties. -/
theorem c5_omitempty_first_option_only_witness :
    addModel
        { env := [("main.S",
            [GoField.mk "F" GoType.str false "f,omitempty" ""])],
          marshalers := [] }
        [] 6 (GoType.namedStruct "S" "main.S") "" =
      some ([("main.S", singleFieldModel "main.S" "f" false stringProp)],
        some (singleFieldModel "main.S" "f" false stringProp)) := by
  have h := c5_omitempty_first_option_only.2 "main.S" "S" "F" "f,omitempty" "f"
    (by decide) (by decide) (by decide) (by decide)
  exact h.trans (by decide)

/-- C10: the JSON-visible name of a field is the first comma-separated
part of the json tag when non-empty and not a dash; the Go field name
when the tag is absent or its name part is empty; and the empty string
(skip) exactly when the name part is a dash — and a skipped field
contributes neither a Properties nor a Required entry, while a field
tagged only ,omitempty still appears under its Go name. -/
theorem c10_json_name_computation :
    (∀ field : GoField,
      (field.jsonTag = "" → jsonNameOfField field = field.name) ∧
      (field.jsonTag ≠ "" → (goSplit field.jsonTag).headD "" = "-" →
        jsonNameOfField field = "") ∧
      (field.jsonTag ≠ "" → (goSplit field.jsonTag).headD "" ≠ "-" →
        (goSplit field.jsonTag).headD "" ≠ "" →
        jsonNameOfField field = (goSplit field.jsonTag).headD "") ∧
      (field.jsonTag ≠ "" → (goSplit field.jsonTag).headD "" = "" →
        jsonNameOfField field = field.name) ∧
      (field.name ≠ "" →
        (jsonNameOfField field = "" ↔
          (field.jsonTag ≠ "" ∧ (goSplit field.jsonTag).headD "" = "-")))) ∧
    (∀ sStr sName fname tag desc : String, ∀ (anon : Bool) (t : GoType),
      isPrimitiveType sStr = false → sName ≠ "" → tag ≠ "" →
      (goSplit tag).headD "" = "-" →
      addModel
          { env := [(sStr, [GoField.mk fname t anon tag desc])],
            marshalers := [] }
          [] 6 (GoType.namedStruct sName sStr) "" =
        some ([(sStr, { id := sStr, required := [], properties := [] })],
          some { id := sStr, required := [], properties := [] })) ∧
    (addModel
        { env := [("main.S",
            [GoField.mk "F" GoType.str false ",omitempty" ""])],
          marshalers := [] }
        [] 6 (GoType.namedStruct "S" "main.S") "" =
      some ([("main.S", singleFieldModel "main.S" "F" false stringProp)],
        some (singleFieldModel "main.S" "F" false stringProp))) := by
  refine ⟨?_, ?_, by decide⟩
  · intro field
    by_cases h1 : field.jsonTag = ""
    · simp [jsonNameOfField, h1]
    · by_cases h2 : (goSplit field.jsonTag).headD "" = "-"
      · simp only [List.headD_eq_head?_getD] at h2
        simp [jsonNameOfField, h1, h2]
      · by_cases h3 : (goSplit field.jsonTag).headD "" = ""
        · simp only [List.headD_eq_head?_getD] at h2 h3
          simp [jsonNameOfField, h1, h2, h3]
        · simp only [List.headD_eq_head?_getD] at h2 h3
          simp [jsonNameOfField, h1, h2, h3]
  · intro sStr sName fname tag desc anon t hp hn htag hdash
    simp only [List.headD_eq_head?_getD] at hdash
    have hname : jsonNameOfField (GoField.mk fname t anon tag desc) = "" := by
      simp [jsonNameOfField, GoField.jsonTag, GoField.name, htag, hdash]
    simp [addModel, addFields, buildProperty, effectiveName, keyFrom,
      typeName, typeString, string_length_eq_zero, fieldsOf, aget?, aset,
      hname, hp, hn]

/-- C10 witness: instantiation of the name computation at a field with
tag name,string, and of the skip rule at a dash-tagged field. -/
theorem c10_json_name_computation_witness :
    jsonNameOfField (GoField.mk "F" GoType.str false "n,string" "") = "n" ∧
    addModel
        { env := [("main.S",
            [GoField.mk "F" (GoType.prim "int") false "-" "d"])],
          marshalers := [] }
        [] 6 (GoType.namedStruct "S" "main.S") "" =
      some ([("main.S", { id := "main.S", required := [], properties := [] })],
        some { id := "main.S", required := [], properties := [] }) := by
  constructor
  · exact (c10_json_name_computation.1
      (GoField.mk "F" GoType.str false "n,string" "")).2.2.1 (by decide)
      (by decide) (by decide)
  · exact c10_json_name_computation.2.1 "main.S" "S" "F" "-" "d" false
      (GoType.prim "int") (by decide) (by decide) (by decide) (by decide)

/-! Claim C7. -/

/-- embCtx is the embedding fixture: struct main.Outer anonymously
embeds struct main.Inner, whose single field is A int. -/
def embCtx : Ctx :=
  { env :=
      [("main.Outer",
        [GoField.mk "Inner" (GoType.namedStruct "Inner" "main.Inner") true "" ""]),
       ("main.Inner",
        [GoField.mk "A" (GoType.prim "int") false "" ""])],
    marshalers := [] }

/-- intProp is the property the builder emits for an int field. -/
def intProp : ModelProperty :=
  { type := some "integer", format := "int32", ref := none, items := none,
    description := "" }

/-- mergeProps_keeps: once the parent registry maps r to exactly the
sub-registry's entry under r, the rest of the merge keeps that binding
(every later ref-copy of r writes the same value again). -/
theorem mergeProps_keeps (subModels : Registry) (subModel : Model) :
    ∀ (entries : List (String × ModelProperty)) (model : Model)
      (models : Registry) (r : String) (mr : Model),
      aget? subModels r = some mr → aget? models r = some mr →
      aget? (mergeProps subModels subModel entries model models).2 r = some mr := by
  intro entries
  induction entries with
  | nil =>
    intro model models r mr hsub hcur
    simpa [mergeProps] using hcur
  | cons e rest ih =>
    obtain ⟨k, v⟩ := e
    intro model models r mr hsub hcur
    rw [mergeProps]
    cases hv : v.ref with
    | none =>
      simp only [hv]
      exact ih _ _ _ _ hsub hcur
    | some r2 =>
      simp only [hv]
      apply ih _ _ _ _ hsub
      rw [aget?_aset]
      by_cases hr : r2 = r
      · subst hr
        simp [hsub]
      · simp [hr, hcur]

/-- C7: anonymously embedding Inner in Outer flattens Inner's fields
into Outer's Model: the concrete fixture synthesizes Outer with the
top-level property A marked required and no property named Inner; and
in the merge loop every Ref-typed property coming from the transient
sub-registry has its referenced Model copied verbatim into the parent
registry whenever the sub-registry holds it. -/
theorem c7_embedded_flattening :
    (addModel embCtx [] 20 (GoType.namedStruct "Outer" "main.Outer") "" =
      some ([("main.Outer", singleFieldModel "main.Outer" "A" true intProp)],
        some (singleFieldModel "main.Outer" "A" true intProp))) ∧
    (∀ (subModels : Registry) (subModel : Model)
      (entries : List (String × ModelProperty)) (model : Model)
      (models : Registry) (k r : String) (v : ModelProperty) (mr : Model),
      (k, v) ∈ entries → v.ref = some r → aget? subModels r = some mr →
      aget? (mergeProps subModels subModel entries model models).2 r = some mr) := by
  constructor
  · decide
  · intro subModels subModel entries
    induction entries with
    | nil =>
      intro model models k r v mr hmem
      simp at hmem
    | cons e rest ih =>
      obtain ⟨k0, v0⟩ := e
      intro model models k r v mr hmem href hsub
      rw [mergeProps]
      rcases List.mem_cons.mp hmem with heq | hm2
      · injection heq with h1 h2
        subst h1
        subst h2
        simp only [href]
        apply mergeProps_keeps _ _ _ _ _ _ _ hsub
        rw [aget?_aset]
        simp [hsub]
      · cases hv0 : v0.ref with
        | none =>
          simp only [hv0]
          exact ih _ _ _ _ _ _ hm2 href hsub
        | some r2 =>
          simp only [hv0]
          exact ih _ _ _ _ _ _ hm2 href hsub

/-- C7 witness: the ref-copy clause at a concrete one-entry merge. -/
theorem c7_embedded_flattening_witness :
    aget? (mergeProps
      [("main.R", { id := "main.R", required := [], properties := [] })]
      { id := "", required := [], properties := [] }
      [("x",
        { type := none, format := "", ref := some "main.R", items := none,
          description := "" })]
      { id := "", required := [], properties := [] } []).2 "main.R" =
      some { id := "main.R", required := [], properties := [] } :=
  c7_embedded_flattening.2
    [("main.R", { id := "main.R", required := [], properties := [] })]
    { id := "", required := [], properties := [] }
    [("x",
      { type := none, format := "", ref := some "main.R", items := none,
        description := "" })]
    { id := "", required := [], properties := [] } [] "x" "main.R"
    { type := none, format := "", ref := some "main.R", items := none,
      description := "" }
    { id := "main.R", required := [], properties := [] }
    (by decide) (by decide) (by decide)

/-! Claim C8: the property shape invariant. -/

/-- propShapeOk is the shape invariant of a single property: a non-array
Type excludes both Ref and Items; Type array requires Items and excludes
Ref; no Type requires a Ref and excludes Items — exactly one of the
three descriptions applies. -/
def propShapeOk (p : ModelProperty) : Bool :=
  match p.type with
  | some t =>
    if t = "array" then p.items.isSome && p.ref.isNone
    else p.items.isNone && p.ref.isNone
  | none => p.ref.isSome && p.items.isNone

/-- modelOk says every property stored in a Model satisfies the shape
invariant. -/
def modelOk (m : Model) : Bool :=
  m.properties.all fun kv => propShapeOk kv.2

/-- regOk says every Model of the registry satisfies modelOk. -/
def regOk (models : Registry) : Bool :=
  models.all fun km => modelOk km.2

/-- The description attached from the description tag does not change a
property's shape. -/
theorem propShapeOk_desc (p : ModelProperty) (d : String) :
    propShapeOk { p with description := d } = propShapeOk p := by
  cases p
  rfl

/-- jsonSchemaType never produces the reserved word array from a
primitive-classified name: the lookup table has no array value and
array itself is not primitive-classified. -/
theorem jsonSchemaType_ne_array {s : String} (h : isPrimitiveType s = true) :
    ¬jsonSchemaType s = "array" := by
  intro hc
  simp only [jsonSchemaType] at hc
  split at hc
  · rename_i v hv
    subst hc
    have hall : (schemaTypeMap.all fun kv => kv.2 ≠ "array") = true := by decide
    have := aget?_all hall hv
    simp at this
  · subst hc
    have : isPrimitiveType "array" = false := by decide
    rw [h] at this
    cases this

/-- A Model looked up in a regOk registry is modelOk. -/
theorem regOk_aget {models : Registry} {k : String} {m : Model}
    (hr : regOk models = true) (h : aget? models k = some m) :
    modelOk m = true :=
  aget?_all hr h

/-- Writing a modelOk Model keeps the registry regOk. -/
theorem regOk_aset {models : Registry} {k : String} {m : Model}
    (hr : regOk models = true) (hm : modelOk m = true) :
    regOk (aset models k m) = true :=
  all_aset hr hm

/-- regOk_nil: the empty registry is shape-correct. -/
theorem regOk_nil : regOk ([] : Registry) = true := rfl

/-- modelOk_placeholder: the placeholder Model registered before
recursion has no properties and is trivially shape-correct. -/
theorem modelOk_placeholder (mn : String) :
    modelOk { id := mn, required := [], properties := [] } = true := rfl

/-- mergeProps preserves the shape invariant: merging shape-correct
properties from a shape-correct sub-registry into a shape-correct
parent model and registry yields a shape-correct model and registry. -/
theorem mergeProps_inv (subModels : Registry) (subModel : Model)
    (hsub : regOk subModels = true) :
    ∀ (entries : List (String × ModelProperty)) (model : Model)
      (models : Registry),
      entries.all (fun kv => propShapeOk kv.2) = true →
      modelOk model = true → regOk models = true →
      modelOk (mergeProps subModels subModel entries model models).1 = true ∧
      regOk (mergeProps subModels subModel entries model models).2 = true := by
  intro entries
  induction entries with
  | nil =>
    intro model models _ hm hr
    simpa [mergeProps] using ⟨hm, hr⟩
  | cons e rest ih =>
    obtain ⟨k, v⟩ := e
    intro model models hall hm hr
    simp only [List.all_cons, Bool.and_eq_true] at hall
    rw [mergeProps]
    refine ih _ _ hall.2 ?_ ?_
    · -- the updated model is modelOk, whatever the required update did
      split
      · exact all_aset hm hall.1
      · exact all_aset hm hall.1
    · -- the registry after a possible ref-copy is regOk
      cases hv : v.ref with
      | none => exact hr
      | some r =>
        apply regOk_aset hr
        cases hg : aget? subModels r with
        | none => rfl
        | some mv => simpa [hg] using regOk_aget hsub hg

/-- builder_shape_inv: every builder function preserves the property
shape invariant of the registry, of the model under construction, and
of every property it emits under a non-empty json name. -/
theorem builder_shape_inv : ∀ fuel : Nat,
    (∀ ctx models st nm res, regOk models = true →
      addModel ctx models fuel st nm = some res →
      regOk res.1 = true ∧ ∀ m, res.2 = some m → modelOk m = true) ∧
    (∀ ctx models sm mn fs res, regOk models = true → modelOk sm = true →
      addFields ctx models fuel sm mn fs = some res →
      regOk res.1 = true ∧ modelOk res.2 = true) ∧
    (∀ ctx models model mn f res, regOk models = true → modelOk model = true →
      buildProperty ctx models fuel model mn f = some res →
      regOk res.1 = true ∧ modelOk res.2.1 = true ∧
        (res.2.2.1 ≠ "" → propShapeOk res.2.2.2 = true)) ∧
    (∀ ctx models f jn model res, regOk models = true → modelOk model = true →
      buildStructTypeProperty ctx models fuel f jn model = some res →
      regOk res.1 = true ∧ modelOk res.2.1 = true ∧
        (res.2.2.1 ≠ "" → propShapeOk res.2.2.2 = true)) ∧
    (∀ ctx models f jn mn res, regOk models = true →
      buildArrayTypeProperty ctx models fuel f jn mn = some res →
      regOk res.1 = true ∧ propShapeOk res.2.2 = true) ∧
    (∀ ctx models f jn mn res, regOk models = true →
      buildPointerTypeProperty ctx models fuel f jn mn = some res →
      regOk res.1 = true ∧ propShapeOk res.2.2 = true) := by
  intro fuel
  induction fuel with
  | zero =>
    refine ⟨?_, ?_, ?_, ?_, ?_, ?_⟩
    · intro ctx models st nm res _ h
      simp [addModel] at h
    · intro ctx models sm mn fs res _ _ h
      simp [addFields] at h
    · intro ctx models model mn f res _ _ h
      simp [buildProperty] at h
    · intro ctx models f jn model res _ _ h
      simp [buildStructTypeProperty] at h
    · intro ctx models f jn mn res _ h
      simp [buildArrayTypeProperty] at h
    · intro ctx models f jn mn res _ h
      simp [buildPointerTypeProperty] at h
  | succ n ih =>
    obtain ⟨ihA, ihF, ihP, ihS, ihR, ihQ⟩ := ih
    refine ⟨?_, ?_, ?_, ?_, ?_, ?_⟩
    · -- addModel
      intro ctx models st nm res hreg h
      simp only [addModel] at h
      split at h
      · cases h
        exact ⟨hreg, by intro m hm; simp at hm⟩
      · split at h
        · cases h
          exact ⟨hreg, by intro m hm; simp at hm⟩
        · split at h
          · -- slice
            split at h
            · exact absurd h (by simp)
            · rename_i heq
              cases h
              have hm := ihA _ _ _ _ _ (regOk_aset hreg (modelOk_placeholder _)) heq
              refine ⟨hm.1, ?_⟩
              intro m hm2
              injection hm2 with hh
              subst hh
              rfl
          · -- array
            split at h
            · exact absurd h (by simp)
            · rename_i heq
              cases h
              have hm := ihA _ _ _ _ _ (regOk_aset hreg (modelOk_placeholder _)) heq
              refine ⟨hm.1, ?_⟩
              intro m hm2
              injection hm2 with hh
              subst hh
              rfl
          · -- named struct
            split at h
            · exact absurd h (by simp)
            · rename_i heq
              cases h
              have hm := ihF _ _ _ _ _ _ (regOk_aset hreg (modelOk_placeholder _)) (modelOk_placeholder _) heq
              refine ⟨regOk_aset hm.1 hm.2, ?_⟩
              intro m hm2
              injection hm2 with hh
              subst hh
              exact hm.2
          · -- anonymous struct
            split at h
            · exact absurd h (by simp)
            · rename_i heq
              cases h
              have hm := ihF _ _ _ _ _ _ (regOk_aset hreg (modelOk_placeholder _)) (modelOk_placeholder _) heq
              refine ⟨regOk_aset hm.1 hm.2, ?_⟩
              intro m hm2
              injection hm2 with hh
              subst hh
              exact hm.2
          · -- other kinds
            cases h
            refine ⟨regOk_aset hreg rfl, ?_⟩
            intro m hm2
            injection hm2 with hh
            subst hh
            rfl
    · -- addFields
      intro ctx models sm mn fs res hreg hsm h
      simp only [addFields] at h
      split at h
      · cases h
        exact ⟨hreg, hsm⟩
      · split at h
        · exact absurd h (by simp)
        · rename_i heq
          have hp := ihP _ _ _ _ _ _ hreg hsm heq
          refine ihF _ _ _ _ _ _ hp.1 ?_ h
          split
          · rename_i hlen
            have hne : _ ≠ "" := fun hcon =>
              hlen (string_length_eq_zero.mpr hcon)
            have hprop := hp.2.2 hne
            split
            · apply all_aset hp.2.1
              split
              · rw [propShapeOk_desc]
                exact hprop
              · exact hprop
            · apply all_aset hp.2.1
              split
              · rw [propShapeOk_desc]
                exact hprop
              · exact hprop
          · exact hp.2.1
    · -- buildProperty
      intro ctx models model mn f res hreg hmodel h
      simp only [buildProperty] at h
      split at h
      · cases h
        exact ⟨hreg, hmodel, fun hne => absurd rfl hne⟩
      · split at h
        · cases h
          exact ⟨hreg, hmodel, fun _ => by simp [propShapeOk]⟩
        · split at h
          · cases h
            exact ⟨hreg, hmodel, fun _ => by simp [propShapeOk]⟩
          · split at h
            · exact ihS _ _ _ _ _ _ hreg hmodel h
            · exact ihS _ _ _ _ _ _ hreg hmodel h
            · split at h
              · exact absurd h (by simp)
              · rename_i heq
                cases h
                have hm := ihR _ _ _ _ _ _ hreg heq
                exact ⟨hm.1, hmodel, fun _ => hm.2⟩
            · split at h
              · exact absurd h (by simp)
              · rename_i heq
                cases h
                have hm := ihR _ _ _ _ _ _ hreg heq
                exact ⟨hm.1, hmodel, fun _ => hm.2⟩
            · split at h
              · exact absurd h (by simp)
              · rename_i heq
                cases h
                have hm := ihQ _ _ _ _ _ _ hreg heq
                exact ⟨hm.1, hmodel, fun _ => hm.2⟩
            · cases h
              exact ⟨hreg, hmodel, fun _ => by simp [propShapeOk]⟩
            · cases h
              exact ⟨hreg, hmodel, fun _ => by simp [propShapeOk]⟩
            · split at h
              · rename_i hprim
                cases h
                refine ⟨hreg, hmodel, fun _ => ?_⟩
                simp [propShapeOk, jsonSchemaType_ne_array hprim]
              · split at h
                · split at h
                  · exact absurd h (by simp)
                  · rename_i heq
                    cases h
                    have hm := ihA _ _ _ _ _ hreg heq
                    exact ⟨hm.1, hmodel, fun _ => by simp [propShapeOk]⟩
                · cases h
                  exact ⟨hreg, hmodel, fun _ => by simp [propShapeOk]⟩
    · -- buildStructTypeProperty
      intro ctx models f jn model res hreg hmodel h
      simp only [buildStructTypeProperty] at h
      split at h
      · -- anonymous struct type
        split at h
        · exact absurd h (by simp)
        · rename_i heq
          cases h
          have hm := ihA _ _ _ _ _ hreg heq
          exact ⟨hm.1, hmodel, fun _ => by simp [propShapeOk]⟩
      · split at h
        · -- embedded struct
          split at h
          · exact absurd h (by simp)
          · rename_i subModels r heq
            cases h
            have hsubReg := (ihA _ _ _ _ _ regOk_nil heq).1
            have hsubM : modelOk ((aget? subModels (keyFrom f.typ)).getD {}) =
                true := by
              cases hg : aget? subModels (keyFrom f.typ) with
              | none => simp [hg, modelOk]
              | some mv => simpa [hg] using regOk_aget hsubReg hg
            have hmg := mergeProps_inv subModels
              ((aget? subModels (keyFrom f.typ)).getD {}) hsubReg
              ((aget? subModels (keyFrom f.typ)).getD {}).properties
              model models hsubM hmodel hreg
            exact ⟨hmg.2, hmg.1, fun hne => absurd rfl hne⟩
        · -- plain struct field
          split at h
          · exact absurd h (by simp)
          · rename_i heq
            cases h
            have hm := ihA _ _ _ _ _ hreg heq
            exact ⟨hm.1, hmodel, fun _ => by simp [propShapeOk]⟩
    · -- buildArrayTypeProperty
      intro ctx models f jn mn res hreg h
      simp only [buildArrayTypeProperty] at h
      split at h
      · exact absurd h (by simp)
      · rename_i heq
        cases h
        have hm := ihA _ _ _ _ _ hreg heq
        exact ⟨hm.1, by simp [propShapeOk]⟩
    · -- buildPointerTypeProperty
      intro ctx models f jn mn res hreg h
      simp only [buildPointerTypeProperty] at h
      split at h
      · split at h
        · exact absurd h (by simp)
        · rename_i heq
          cases h
          have hm := ihA _ _ _ _ _ hreg heq
          exact ⟨hm.1, by simp [propShapeOk]⟩
      · split at h
        · exact absurd h (by simp)
        · rename_i heq
          cases h
          have hm := ihA _ _ _ _ _ hreg heq
          exact ⟨hm.1, by simp [propShapeOk]⟩
      · split at h
        · split at h
          · exact absurd h (by simp)
          · rename_i heq
            cases h
            have hm := ihA _ _ _ _ _ hreg heq
            exact ⟨hm.1, by simp [propShapeOk]⟩
        · split at h
          · exact absurd h (by simp)
          · rename_i heq
            cases h
            have hm := ihA _ _ _ _ _ hreg heq
            exact ⟨hm.1, by simp [propShapeOk]⟩

/-- C8: every ModelProperty the builder produces and stores satisfies
the shape invariant: starting from a shape-correct registry, addModel
leaves every stored Model (and the Model it returns) with properties
described by exactly one of a non-array Type, a Ref, or Type array with
populated Items — never a Type together with a Ref, and Items present
exactly when Type is array. -/
theorem c8_property_shape_invariant (ctx : Ctx) (models : Registry)
    (fuel : Nat) (st : GoType) (nm : String) (res : Registry × Option Model)
    (hreg : regOk models = true)
    (h : addModel ctx models fuel st nm = some res) :
    regOk res.1 = true ∧ (∀ m, res.2 = some m → modelOk m = true) :=
  (builder_shape_inv fuel).1 ctx models st nm res hreg h

/-- C8 witness: the shape invariant at the concrete self-referential
fixture, whose registry and returned Model come out shape-correct. -/
theorem c8_property_shape_invariant_witness :
    regOk [("main.Node", nodeModel)] = true ∧ modelOk nodeModel = true :=
  ⟨(c8_property_shape_invariant nodeCtx [] 20
      (GoType.namedStruct "Node" "main.Node") ""
      ([("main.Node", nodeModel)], some nodeModel) (by decide) (by decide)).1,
    (c8_property_shape_invariant nodeCtx [] 20
      (GoType.namedStruct "Node" "main.Node") ""
      ([("main.Node", nodeModel)], some nodeModel) (by decide) (by decide)).2
      nodeModel rfl⟩

end Swagger
